import Mathlib

/-!
Verification development for the word-game server (`server.py`).

The server is shallowly embedded: pure helpers (`load_words`,
`get_random_sequence`, the turn-validation logic) become Lean functions;
the stateful main game loop becomes a step function on an explicit
`GameState`; the randomness consumed by `random.choice` / `random.randint`
and the network environment (which sends fail, what the read returns)
become explicit input parameters.  Python machine behaviour that matters
to the claims is kept: `random.randint(a, b)` raising when `b < a` is
modelled by an `Option` result, `os._exit(1)` by a `shutdown` step result.
-/

namespace WordGame

/-- Server configuration constants from the top of `server.py`. -/
def LIVES_PER_PLAYER : Int := 3

def ROUND_TIME : Nat := 5

def MIN_PLAYERS : Nat := 4

def MAX_PLAYERS : Nat := 4

/-- Model of Python `str.lower()`: lower-case every character. -/
def pyLower (s : String) : String := ⟨s.data.map Char.toLower⟩

/-- Model of Python `str.strip()`: drop leading and trailing
whitespace. -/
def pyStrip (s : String) : String :=
  ⟨((s.data.dropWhile Char.isWhitespace).reverse.dropWhile Char.isWhitespace).reverse⟩

/-- `data.decode().strip().lower()` as applied to every incoming word. -/
def normWord (s : String) : String := pyLower (pyStrip s)

/-- Model of Python `needle in hay` on strings: contiguous-substring test. -/
def pyIn (needle hay : String) : Bool := decide (needle.data <:+: hay.data)

/--
`load_words` from `server.py` (lines 16-35).  File contents are modelled as
the list of lines of the file when it opens, `none` when `open` raises
`FileNotFoundError`.  The primary path (`words.txt` in the current
directory) filters to words whose stripped form is longer than one
character; the fallback path (script directory) applies NO length filter;
when both are missing the function returns the empty set.
-/
def load_words (primary fallback : Option (List String)) : List String :=
  match primary with
  | some lines => (lines.filter (fun w => 1 < (pyStrip w).length)).map normWord
  | none =>
    match fallback with
    | some lines => lines.map normWord
    | none => []

/--
Startup check in `main` (lines 154-157): if the loaded bank is empty the
server prints a failure and returns before opening any listener.  `none`
models the aborted startup, `some ws` a server that proceeds with bank
`ws`.
-/
def startup (primary fallback : Option (List String)) : Option (List String) :=
  let ws := load_words primary fallback
  if ws.isEmpty then none else some ws

/--
`get_random_sequence` from `server.py` (lines 38-54).  The random draws
are passed in: `a` selects the word (`random.choice`), `b` the target
length (`random.randint(2, 3)`), `c` the start offset
(`random.randint(0, len(word) - length)`).  In Python, `randint(0, hi)`
raises `ValueError` when `hi < 0`; that raise is modelled by `none`.
-/
def get_random_sequence (words : List String) (a b c : Nat) : Option String :=
  if words.isEmpty then some "ab"
  else if (words.getD (a % words.length) "").length = 2 then
    some (words.getD (a % words.length) "")
  else if (words.getD (a % words.length) "").length < 2 + b % 2 then none
  else
    some ⟨((words.getD (a % words.length) "").data.drop
      (c % ((words.getD (a % words.length) "").length - (2 + b % 2) + 1))).take
      (2 + b % 2)⟩

/-- The `Player` object of `server.py` (lines 56-67), without the opaque
socket fields.  `lives` is an `Int` so that non-negativity is a real
property rather than a typing artefact. -/
structure Player where
  name : String
  active : Bool
  lives : Int
  disconnected : Bool
deriving DecidableEq, Repr

/-- Placeholder used to totalise list indexing; never reached under the
side conditions of the theorems below. -/
def dummyPlayer : Player := ⟨"", true, 0, false⟩

/-- `Player.__init__`: a freshly admitted player. -/
def mkPlayer (name : String) : Player :=
  { name := name, active := true, lives := LIVES_PER_PLAYER, disconnected := false }

/-- The two assignments performed on every detected delivery/read failure:
`p.disconnected = True; p.active = False`. -/
def markFailed (p : Player) : Player :=
  { p with disconnected := true, active := false }

/-- Effect of one attempted send on the player at absolute index `i`:
eligible targets whose send fails are marked, everyone else is
untouched. -/
def broadcastOne (fails : List Nat) (targets : Nat → Bool) (i : Nat) (p : Player) : Player :=
  if targets i && p.active && !p.disconnected && fails.contains i then markFailed p else p

/--
`broadcast` from `server.py` (lines 70-84), acting on the roster indexed
from `i`.  `targets` says which indices the player list of the call contains,
`fails` which sends would raise.  Only players that are `active` and not
`disconnected` are attempted; a failed attempt marks that player and the
iteration continues, so the call always returns (a delivery failure never
ends the session by itself).
-/
def broadcast (fails : List Nat) (targets : Nat → Bool) : Nat → List Player → List Player
  | _, [] => []
  | i, p :: ps => broadcastOne fails targets i p :: broadcast fails targets (i + 1) ps

/-- The indices actually delivered to by `broadcast`: targeted, eligible
(`active` and not `disconnected`) and whose send does not fail. -/
def broadcastDelivered (fails : List Nat) (targets : Nat → Bool) : Nat → List Player → List Nat
  | _, [] => []
  | i, p :: ps =>
    (if targets i && p.active && !p.disconnected && !fails.contains i then [i] else [])
      ++ broadcastDelivered fails targets (i + 1) ps

/-- `send_to_player` from `server.py` (lines 87-100): the same body as
`broadcast` restricted to the single index `i`. -/
def send_to_player (fail : Bool) (i : Nat) (ps : List Player) : List Player :=
  broadcast (if fail then [i] else []) (fun j => decide (j = i)) 0 ps

/--
The tail of `handle_player` (`server.py` lines 132-145), reached only when
the read of the lobby listener fails: mark the player disconnected and
inactive, close every channel, and `os._exit(1)`.  The returned `Nat` is
the process exit status.
-/
def handle_player_disconnect (i : Nat) (ps : List Player) : List Player × Nat :=
  (ps.set i (markFailed (ps.getD i dummyPlayer)), 1)

/-- Rejection reasons from `server.py` lines 339-348, abstracted from
their message strings: `TIMEOUT`, `Word does not contain <seq>`,
`Not a valid word`, `Word already used`, `Invalid word`. -/
inductive Reason where
  | timeoutR
  | noSeq
  | notValid
  | alreadyUsed
  | invalid
deriving DecidableEq, Repr

/-- How one resolved turn ended. -/
inductive Outcome where
  | timeout
  | accepted
  | rejected (r : Reason)
deriving DecidableEq, Repr

/-- The reason cascade of `server.py` lines 339-348, in source order
(the first and last branches are unreachable from the call site). -/
def rejectReason (WORDS used : List String) (seq word : String) : Reason :=
  if word = "" then .timeoutR
  else if !pyIn seq word then .noSeq
  else if !decide (word ∈ WORDS) then .notValid
  else if decide (word ∈ used) then .alreadyUsed
  else .invalid

/-- The validation branching of `server.py` lines 319-348: empty word is a
timeout; a word containing the sequence, present in the bank and not yet
used is accepted; anything else is rejected with `rejectReason`. -/
def resolveOutcome (WORDS used : List String) (seq word : String) : Outcome :=
  if word = "" then .timeout
  else if pyIn seq word && decide (word ∈ WORDS) && !decide (word ∈ used) then .accepted
  else .rejected (rejectReason WORDS used seq word)

/-- The mutable state of the main game loop (`server.py` lines 204-232):
the frozen `active_players` roster, the turn and round counters,
`used_words`, the current sequence and `last_word_valid`. -/
structure GameState where
  roster : List Player
  turn : Nat
  roundNum : Nat
  usedWords : List String
  seq : String
  lastWordValid : Bool
deriving DecidableEq, Repr

/-- Game-loop state on entry (lines 204-232): counters reset, no used
words, `last_word_valid = True`; `seq` is still unassigned in the source
(first resolved turn always generates it), modelled by `""`. -/
def initState (roster : List Player) : GameState :=
  { roster := roster, turn := 0, roundNum := 1, usedWords := [], seq := "",
    lastWordValid := true }

/--
Environment input consumed by one iteration of the game loop: the fresh
sequence the word bank would produce, which sends fail at each of the
send points of the iteration (the three round-header `broadcast`s, the
turn prompt `send_to_player`, the turn-info `broadcast` to the others,
and the two outcome sends), and what the read from the acting player
returns (`none` models empty data, `socket.timeout`, and any other
`recv` exception — all of which the source collapses to `word = ""`).
-/
structure TurnInput where
  freshSeq : String
  fails1 : List Nat
  fails2 : List Nat
  fails3 : List Nat
  failPrompt : Bool
  fails5 : List Nat
  read : Option String
  failSelf : Bool
  failsOthers : List Nat
deriving Repr

/-- `active_players[turn % len(active_players)]` index (line 241). -/
def actingIdx (s : GameState) : Nat := s.turn % s.roster.length

/-- The skip guard of line 245:
`player.lives <= 0 or not player.active or player.disconnected`. -/
def skipCheck (p : Player) : Bool :=
  decide (p.lives ≤ 0) || !p.active || p.disconnected

/-- The five sends between turn selection and the read (lines 264-277):
three broadcasts to the full player list, the prompt to the acting
player, and the turn-info broadcast to everyone else. -/
def preSends (inp : TurnInput) (idx : Nat) (ps : List Player) : List Player :=
  broadcast inp.fails5 (fun j => !decide (j = idx)) 0
    (send_to_player inp.failPrompt idx
      (broadcast inp.fails3 (fun _ => true) 0
        (broadcast inp.fails2 (fun _ => true) 0
          (broadcast inp.fails1 (fun _ => true) 0 ps))))

/-- The two outcome sends after resolution (e.g. lines 323-325): one to
the acting player, one broadcast to the other active players. -/
def postSends (inp : TurnInput) (idx : Nat) (ps : List Player) : List Player :=
  broadcast inp.failsOthers (fun j => !decide (j = idx)) 0
    (send_to_player inp.failSelf idx ps)

/-- The word obtained from the read (lines 283-301): `""` on timeout,
empty data or read error, otherwise `data.decode().strip().lower()`. -/
def readWord (r : Option String) : String :=
  match r with
  | none => ""
  | some raw => normWord raw

/-- `player.lives -= 1` on the roster entry at index `i`. -/
def decLife : Nat → List Player → List Player
  | _, [] => []
  | 0, p :: ps => { p with lives := p.lives - 1 } :: ps
  | i + 1, p :: ps => p :: decLife i ps

/-- `turn += 1` and the round increment of lines 356-358. -/
def advanceTurn (s : GameState) : GameState :=
  { s with turn := s.turn + 1,
           roundNum := if (s.turn + 1) % s.roster.length = 0
                       then s.roundNum + 1 else s.roundNum }

/-- Observable result of one iteration of the game loop.  `skipped` is the
`continue` of line 249, `resolved` a turn that reached the validation
block, `shutdown c` is `os._exit(c)`, and `crash` an unhandled Python
exception (indexing an empty roster). -/
inductive StepResult where
  | skipped (s : GameState)
  | resolved (out : Outcome) (s : GameState)
  | shutdown (code : Nat)
  | crash
deriving DecidableEq, Repr

/--
One iteration of the main game loop, `server.py` lines 239-361: pick
`active_players[turn % len]`; skip it if eliminated or disconnected;
otherwise generate or reuse the sequence, perform the pre-read sends,
read the word, shut the whole process down with status 1 if the acting
player has its `disconnected` flag now set, and otherwise resolve the turn
exactly as the validation block does.
-/
def step (WORDS : List String) (inp : TurnInput) (s : GameState) : StepResult :=
  if s.roster.length = 0 then .crash
  else if skipCheck (s.roster.getD (actingIdx s) dummyPlayer) then
    .skipped { s with turn := s.turn + 1 }
  else if ((preSends inp (actingIdx s) s.roster).getD (actingIdx s) dummyPlayer).disconnected then
    .shutdown 1
  else
    match resolveOutcome WORDS s.usedWords
        (if s.lastWordValid then inp.freshSeq else s.seq) (readWord inp.read) with
    | .timeout =>
      .resolved .timeout
        (advanceTurn { s with
          roster := postSends inp (actingIdx s)
            (decLife (actingIdx s) (preSends inp (actingIdx s) s.roster)),
          seq := if s.lastWordValid then inp.freshSeq else s.seq,
          lastWordValid := false })
    | .accepted =>
      .resolved .accepted
        (advanceTurn { s with
          roster := postSends inp (actingIdx s) (preSends inp (actingIdx s) s.roster),
          seq := if s.lastWordValid then inp.freshSeq else s.seq,
          usedWords := readWord inp.read :: s.usedWords,
          lastWordValid := true })
    | .rejected r =>
      .resolved (.rejected r)
        (advanceTurn { s with
          roster := postSends inp (actingIdx s)
            (decLife (actingIdx s) (preSends inp (actingIdx s) s.roster)),
          seq := if s.lastWordValid then inp.freshSeq else s.seq,
          lastWordValid := false })

/-- The filter of lines 239 and 364:
`p.active and not p.disconnected and p.lives > 0`. -/
def aliveCheck (p : Player) : Bool :=
  p.active && !p.disconnected && decide (0 < p.lives)

/-- The `while` condition of line 239: more than one alive, connected
roster player. -/
def loopGuard (s : GameState) : Bool :=
  decide (1 < (s.roster.filter aliveCheck).length)

/-- Line 364: the first roster player that is active, connected and has
lives left (`[...][0]`, `none` when the comprehension is empty and the
source would raise `IndexError`). -/
def winner (s : GameState) : Option Player :=
  (s.roster.filter aliveCheck).head?

/-- States reachable from `s` by iterating the game loop. -/
inductive Reaches (WORDS : List String) : GameState → GameState → Prop
  | refl (s : GameState) : Reaches WORDS s s
  | skip (s t u : GameState) (inp : TurnInput) :
      Reaches WORDS s t → step WORDS inp t = .skipped u → Reaches WORDS s u
  | res (s t u : GameState) (inp : TurnInput) (out : Outcome) :
      Reaches WORDS s t → step WORDS inp t = .resolved out u → Reaches WORDS s u

/-- The flag invariant claimed for `Player`. -/
def flagInv (ps : List Player) : Prop :=
  ∀ p ∈ ps, p.disconnected = true → p.active = false

/-! ### Helper lemmas about list access -/

theorem getD_lt {α : Type} (l : List α) (i : Nat) (h : i < l.length) (d : α) :
    l.getD i d = l[i] := by
  simp [List.getD, List.getElem?_eq_getElem h]

theorem getD_ge {α : Type} (l : List α) (i : Nat) (h : l.length ≤ i) (d : α) :
    l.getD i d = d := by
  simp [List.getD, List.getElem?_eq_none h]

/-! ### Helper lemmas about `broadcast`, `send_to_player` and `decLife` -/

theorem broadcast_length (f : List Nat) (t : Nat → Bool) (i : Nat) (ps : List Player) :
    (broadcast f t i ps).length = ps.length := by
  induction ps generalizing i with
  | nil => rfl
  | cons p ps ih => simp [broadcast, ih]

theorem broadcast_getD (f : List Nat) (t : Nat → Bool) (ps : List Player) (i j : Nat)
    (hj : j < ps.length) (d : Player) :
    (broadcast f t i ps).getD j d = broadcastOne f t (i + j) (ps.getD j d) := by
  induction ps generalizing i j with
  | nil => simp at hj
  | cons p ps ih =>
    cases j with
    | zero => simp [broadcast]
    | succ j =>
      have hj' : j < ps.length := by simpa using hj
      have h2 := ih (i + 1) j hj'
      simp only [broadcast, List.getD_cons_succ]
      rw [h2]
      congr 1
      omega

theorem broadcastOne_lives (f : List Nat) (t : Nat → Bool) (i : Nat) (p : Player) :
    (broadcastOne f t i p).lives = p.lives := by
  unfold broadcastOne markFailed; split <;> rfl

theorem broadcast_getD_lives (f : List Nat) (t : Nat → Bool) (ps : List Player)
    (i j : Nat) (d : Player) :
    ((broadcast f t i ps).getD j d).lives = (ps.getD j d).lives := by
  rcases Nat.lt_or_ge j ps.length with h | h
  · rw [broadcast_getD f t ps i j h d, broadcastOne_lives]
  · rw [getD_ge _ _ h, getD_ge _ _ (by rw [broadcast_length]; exact h)]

theorem send_to_player_length (b : Bool) (i : Nat) (ps : List Player) :
    (send_to_player b i ps).length = ps.length := by
  simp [send_to_player, broadcast_length]

theorem send_to_player_getD_lives (b : Bool) (i j : Nat) (ps : List Player) (d : Player) :
    ((send_to_player b i ps).getD j d).lives = (ps.getD j d).lives := by
  unfold send_to_player
  rw [broadcast_getD_lives]

theorem preSends_length (inp : TurnInput) (idx : Nat) (ps : List Player) :
    (preSends inp idx ps).length = ps.length := by
  unfold preSends send_to_player
  rw [broadcast_length, broadcast_length, broadcast_length, broadcast_length,
    broadcast_length]

theorem preSends_getD_lives (inp : TurnInput) (idx j : Nat) (ps : List Player) (d : Player) :
    ((preSends inp idx ps).getD j d).lives = (ps.getD j d).lives := by
  unfold preSends send_to_player
  rw [broadcast_getD_lives, broadcast_getD_lives, broadcast_getD_lives,
    broadcast_getD_lives, broadcast_getD_lives]

theorem postSends_length (inp : TurnInput) (idx : Nat) (ps : List Player) :
    (postSends inp idx ps).length = ps.length := by
  unfold postSends send_to_player
  rw [broadcast_length, broadcast_length]

theorem postSends_getD_lives (inp : TurnInput) (idx j : Nat) (ps : List Player) (d : Player) :
    ((postSends inp idx ps).getD j d).lives = (ps.getD j d).lives := by
  unfold postSends send_to_player
  rw [broadcast_getD_lives, broadcast_getD_lives]

theorem decLife_length (i : Nat) (ps : List Player) :
    (decLife i ps).length = ps.length := by
  induction ps generalizing i with
  | nil => cases i <;> rfl
  | cons p ps ih => cases i <;> simp [decLife, ih]

theorem decLife_getD (i j : Nat) (ps : List Player) (d : Player) (hj : j < ps.length) :
    (decLife i ps).getD j d =
      if j = i then { ps.getD j d with lives := (ps.getD j d).lives - 1 }
      else ps.getD j d := by
  induction ps generalizing i j with
  | nil => simp at hj
  | cons p ps ih =>
    cases i with
    | zero =>
      cases j with
      | zero => simp [decLife]
      | succ j => simp [decLife]
    | succ i =>
      cases j with
      | zero => simp [decLife]
      | succ j =>
        have hj' : j < ps.length := by simpa using hj
        have := ih i j hj'
        simpa [decLife] using this

/-! ### Flag-invariant preservation -/

theorem flagInv_markFailed (p : Player) :
    (markFailed p).disconnected = true ∧ (markFailed p).active = false := by
  exact ⟨rfl, rfl⟩

theorem flagInv_broadcast (f : List Nat) (t : Nat → Bool) (i : Nat) (ps : List Player)
    (h : flagInv ps) : flagInv (broadcast f t i ps) := by
  induction ps generalizing i with
  | nil => intro q hq; simp [broadcast] at hq
  | cons p ps ih =>
    intro q hq
    rcases List.mem_cons.mp hq with hq | hq
    · subst hq
      unfold broadcastOne
      split
      · intro _; rfl
      · exact h p (List.mem_cons_self p ps)
    · exact ih (i + 1) (fun r hr => h r (List.mem_cons_of_mem p hr)) q hq

theorem flagInv_send_to_player (b : Bool) (i : Nat) (ps : List Player)
    (h : flagInv ps) : flagInv (send_to_player b i ps) :=
  flagInv_broadcast _ _ _ _ h

theorem flagInv_decLife (i : Nat) (ps : List Player) (h : flagInv ps) :
    flagInv (decLife i ps) := by
  induction ps generalizing i with
  | nil => intro q hq; simp [decLife] at hq
  | cons p ps ih =>
    intro q hq
    cases i with
    | zero =>
      rcases List.mem_cons.mp hq with hq | hq
      · subst hq; exact h p (List.mem_cons_self p ps)
      · exact h q (List.mem_cons_of_mem p hq)
    | succ i =>
      rcases List.mem_cons.mp hq with hq | hq
      · subst hq; exact h q (List.mem_cons_self q ps)
      · exact ih i (fun r hr => h r (List.mem_cons_of_mem p hr)) q hq

theorem flagInv_preSends (inp : TurnInput) (idx : Nat) (ps : List Player)
    (h : flagInv ps) : flagInv (preSends inp idx ps) := by
  unfold preSends
  exact flagInv_broadcast _ _ _ _ (flagInv_send_to_player _ _ _
    (flagInv_broadcast _ _ _ _ (flagInv_broadcast _ _ _ _ (flagInv_broadcast _ _ _ _ h))))

theorem flagInv_postSends (inp : TurnInput) (idx : Nat) (ps : List Player)
    (h : flagInv ps) : flagInv (postSends inp idx ps) := by
  unfold postSends
  exact flagInv_broadcast _ _ _ _ (flagInv_send_to_player _ _ _ h)

/-! ### Inversion lemmas for `step` -/

theorem step_skipped_inv (WORDS : List String) (inp : TurnInput) (s s' : GameState)
    (h : step WORDS inp s = .skipped s') :
    s.roster.length ≠ 0 ∧
    skipCheck (s.roster.getD (actingIdx s) dummyPlayer) = true ∧
    s' = { s with turn := s.turn + 1 } := by
  unfold step at h
  split at h
  · exact absurd h (by simp)
  · split at h
    · next h0 hskip =>
      cases h
      exact ⟨h0, hskip, rfl⟩
    · split at h
      · exact absurd h (by simp)
      · split at h <;> exact absurd h (by simp)

theorem bool_eq_false {b : Bool} (h : ¬ b = true) : b = false := by
  cases b
  · rfl
  · exact absurd rfl h

theorem step_shutdown_inv (WORDS : List String) (inp : TurnInput) (s : GameState)
    (c : Nat) :
    step WORDS inp s = .shutdown c ↔
      (c = 1 ∧ s.roster.length ≠ 0 ∧
       skipCheck (s.roster.getD (actingIdx s) dummyPlayer) = false ∧
       ((preSends inp (actingIdx s) s.roster).getD (actingIdx s) dummyPlayer).disconnected
         = true) := by
  unfold step
  split
  · next h0 =>
    constructor
    · intro h; cases h
    · rintro ⟨_, h0', _, _⟩; exact absurd h0 h0'
  · next h0 =>
    split
    · next hskip =>
      constructor
      · intro h; cases h
      · rintro ⟨_, _, hsk, _⟩
        rw [hskip] at hsk
        cases hsk
    · next hskip =>
      split
      · next hdisc =>
        constructor
        · intro h
          cases h
          exact ⟨rfl, h0, bool_eq_false hskip, hdisc⟩
        · rintro ⟨hc, _, _, _⟩
          rw [hc]
      · next hdisc =>
        split
        all_goals
          exact ⟨(fun h => nomatch h), fun hr => absurd hr.2.2.2 hdisc⟩

theorem step_resolved_inv (WORDS : List String) (inp : TurnInput) (s : GameState)
    (out : Outcome) (s' : GameState) (h : step WORDS inp s = .resolved out s') :
    s.roster.length ≠ 0 ∧
    skipCheck (s.roster.getD (actingIdx s) dummyPlayer) = false ∧
    out = resolveOutcome WORDS s.usedWords
            (if s.lastWordValid then inp.freshSeq else s.seq) (readWord inp.read) ∧
    s' = advanceTurn { s with
        roster := postSends inp (actingIdx s)
          (if out = .accepted then preSends inp (actingIdx s) s.roster
           else decLife (actingIdx s) (preSends inp (actingIdx s) s.roster)),
        seq := if s.lastWordValid then inp.freshSeq else s.seq,
        usedWords := if out = .accepted then readWord inp.read :: s.usedWords
                     else s.usedWords,
        lastWordValid := decide (out = .accepted) } := by
  unfold step at h
  split at h
  · exact absurd h (by simp)
  · next h0 =>
    split at h
    · exact absurd h (by simp)
    · next hskip =>
      split at h
      · exact absurd h (by simp)
      · next hdisc =>
        split at h
        all_goals next hout =>
          cases h
          exact ⟨h0, bool_eq_false hskip, hout.symm, rfl⟩

/-! ### Generic facts used by the sequence-generation claims -/

theorem take_drop_within (l : List Char) (n m : Nat) : (l.drop n).take m <:+: l :=
  ⟨l.take n, (l.drop n).drop m, by
    rw [List.append_assoc, List.take_append_drop, List.take_append_drop]⟩

theorem pyLower_length (s : String) : (pyLower s).length = s.length :=
  List.length_map s.data Char.toLower

theorem normWord_length (s : String) : (normWord s).length = (pyStrip s).length :=
  pyLower_length (pyStrip s)

/-! ### Claim theorems -/

/-- Claim C1: on a resolved turn with a non-empty submitted word, the
submission is accepted iff it contains the current sequence, is in the
word bank, and is not already used; otherwise it is rejected with the
first applicable reason in the priority order: does not contain the
sequence, then not a valid word, then already used. -/
theorem validation_accept_iff_priority (WORDS used : List String) (seq word : String)
    (hw : word ≠ "") :
    (resolveOutcome WORDS used seq word = .accepted ↔
      (pyIn seq word = true ∧ word ∈ WORDS ∧ word ∉ used)) ∧
    (resolveOutcome WORDS used seq word ≠ .accepted →
      resolveOutcome WORDS used seq word = .rejected
        (if pyIn seq word = false then .noSeq
         else if word ∉ WORDS then .notValid
         else .alreadyUsed)) := by
  unfold resolveOutcome rejectReason
  rw [if_neg hw, if_neg hw]
  by_cases h1 : pyIn seq word = true <;>
    by_cases h2 : word ∈ WORDS <;>
      by_cases h3 : word ∈ used <;>
        simp [h1, h2, h3, bool_eq_false]

theorem validation_accept_iff_priority_witness :
    resolveOutcome ["cat"] [] "ca" "cat" = .accepted :=
  ((validation_accept_iff_priority ["cat"] [] "ca" "cat" (by decide)).1).mpr
    ⟨by decide, by decide, by decide⟩

/-- Claim C4, counterexample: on the non-empty bank `["a"]` the source
raises `ValueError` inside `random.randint` (modelled by `none`) instead
of returning a 2-3 letter sequence, because the chosen word is shorter
than the chosen slice length. -/
theorem random_sequence_total_cex :
    (["a"] : List String) ≠ [] ∧ get_random_sequence ["a"] 0 0 0 = none := by
  exact ⟨by decide, by decide⟩

/-- Claim C4, amended: for every non-empty word bank, whenever
`get_random_sequence` returns at all (which it always does when the
chosen word has length at least 2, and in particular it returns the whole
chosen word when that word has length exactly 2), the returned string has
length 2 or 3 and is a contiguous substring of some word in the bank. -/
theorem random_sequence_result_correct (words : List String) (a b c : Nat)
    (h : words ≠ []) :
    ((words.getD (a % words.length) "").length = 2 →
      get_random_sequence words a b c = some (words.getD (a % words.length) "")) ∧
    (∀ s, get_random_sequence words a b c = some s →
      (s.length = 2 ∨ s.length = 3) ∧ ∃ w ∈ words, s.data <:+: w.data) := by
  have hne : words.isEmpty = false := by
    cases words with
    | nil => exact absurd rfl h
    | cons x xs => rfl
  have hlen : 0 < words.length := List.length_pos.mpr h
  have hmem : words.getD (a % words.length) "" ∈ words := by
    rw [getD_lt _ _ (Nat.mod_lt a hlen)]
    exact List.getElem_mem _
  constructor
  · intro h2
    unfold get_random_sequence
    rw [if_neg (by simp [hne]), if_pos h2]
  · intro s hs
    unfold get_random_sequence at hs
    rw [if_neg (by simp [hne])] at hs
    by_cases h2 : (words.getD (a % words.length) "").length = 2
    · rw [if_pos h2] at hs
      cases hs
      exact ⟨Or.inl h2, words.getD (a % words.length) "", hmem, List.infix_refl _⟩
    · rw [if_neg h2] at hs
      by_cases h3 : (words.getD (a % words.length) "").length < 2 + b % 2
      · rw [if_pos h3] at hs
        cases hs
      · rw [if_neg h3] at hs
        cases hs
        have hb : b % 2 < 2 := Nat.mod_lt b (by omega)
        have hL : 2 + b % 2 ≤ (words.getD (a % words.length) "").length :=
          Nat.le_of_not_lt h3
        have hstart : c % ((words.getD (a % words.length) "").length - (2 + b % 2) + 1)
            ≤ (words.getD (a % words.length) "").length - (2 + b % 2) := by
          have := Nat.mod_lt c
            (y := (words.getD (a % words.length) "").length - (2 + b % 2) + 1) (by omega)
          omega
        have hdata : (words.getD (a % words.length) "").data.length
            = (words.getD (a % words.length) "").length := rfl
        constructor
        · have : (String.mk (((words.getD (a % words.length) "").data.drop
              (c % ((words.getD (a % words.length) "").length - (2 + b % 2) + 1))).take
              (2 + b % 2))).length = 2 + b % 2 := by
            show (((words.getD (a % words.length) "").data.drop
              (c % ((words.getD (a % words.length) "").length - (2 + b % 2) + 1))).take
              (2 + b % 2)).length = 2 + b % 2
            rw [List.length_take, List.length_drop]
            omega
          omega
        · exact ⟨words.getD (a % words.length) "", hmem, take_drop_within _ _ _⟩

theorem random_sequence_result_correct_witness :
    get_random_sequence ["to"] 0 0 0
      = some ((["to"] : List String).getD (0 % (["to"] : List String).length) "") :=
  (random_sequence_result_correct ["to"] 0 0 0 (by decide)).1 (by decide)

/-- Claim C10: on a non-empty bank all of whose words have length at
least 2, `get_random_sequence` never raises: the `randint` upper bound
`len(word) - length` is never negative and a string is always
returned. -/
theorem random_sequence_no_raise (words : List String) (a b c : Nat)
    (h : words ≠ []) (h2 : ∀ w ∈ words, 2 ≤ w.length) :
    (get_random_sequence words a b c).isSome = true := by
  have hne : words.isEmpty = false := by
    cases words with
    | nil => exact absurd rfl h
    | cons x xs => rfl
  have hlen : 0 < words.length := List.length_pos.mpr h
  have hmem : words.getD (a % words.length) "" ∈ words := by
    rw [getD_lt _ _ (Nat.mod_lt a hlen)]
    exact List.getElem_mem _
  have hw2 : 2 ≤ (words.getD (a % words.length) "").length := h2 _ hmem
  unfold get_random_sequence
  rw [if_neg (by simp [hne])]
  by_cases hl : (words.getD (a % words.length) "").length = 2
  · rw [if_pos hl]; rfl
  · rw [if_neg hl, if_neg (by
      have hb : b % 2 < 2 := Nat.mod_lt b (by omega)
      omega)]
    rfl

theorem random_sequence_no_raise_witness :
    (get_random_sequence ["cat", "dog"] 1 1 1).isSome = true :=
  random_sequence_no_raise ["cat", "dog"] 1 1 1 (by decide) (by decide)

/-- Claim C8, counterexample: the fallback loading path applies no length
filter, so a source containing the single-character word `a` loads
successfully into a bank containing a word of length 1. -/
theorem load_words_filter_cex :
    "a" ∈ load_words none (some ["a"]) ∧ ¬ 1 < ("a" : String).length := by
  exact ⟨by decide, by decide⟩

/-- Claim C8, amended: on the primary loading path every word of the
resulting bank has length greater than 1, but the fallback path applies
no length filter at all; when both sources are missing, `load_words`
returns the empty set (it fails rather than crashes) and startup
aborts. -/
theorem load_words_amended :
    (∀ lines fb, ∀ w ∈ load_words (some lines) fb, 1 < w.length) ∧
    (∀ lines, load_words none (some lines) = lines.map normWord) ∧
    load_words none none = [] ∧ startup none none = none := by
  refine ⟨?_, fun _ => rfl, rfl, rfl⟩
  intro lines fb w hw
  unfold load_words at hw
  obtain ⟨l, hl, rfl⟩ := List.mem_map.mp hw
  have hp := List.of_mem_filter hl
  have hp2 : 1 < (pyStrip l).length := by simpa using hp
  rw [normWord_length]
  exact hp2

theorem load_words_amended_witness :
    1 < ("bee" : String).length :=
  load_words_amended.1 ["bee"] none "bee" (by decide)

/-- Claim C3: the `while` condition of the main loop fails exactly when at
most one roster player is active, connected and has lives left, and any
player reported as winner on exit satisfies all three of those
predicates. -/
theorem loop_exit_winner (s : GameState) :
    (loopGuard s = false ↔ (s.roster.filter aliveCheck).length ≤ 1) ∧
    (∀ p, winner s = some p →
      p.active = true ∧ p.disconnected = false ∧ 0 < p.lives) := by
  constructor
  · unfold loopGuard
    simp [Nat.not_lt]
  · intro p hp
    unfold winner at hp
    have hmem : p ∈ s.roster.filter aliveCheck := by
      cases hfl : s.roster.filter aliveCheck with
      | nil => rw [hfl] at hp; cases hp
      | cons q rest =>
        rw [hfl] at hp
        have hq : q = p := by simpa using hp
        subst hq
        exact hfl ▸ List.mem_cons_self q rest
    have := List.of_mem_filter hmem
    simpa [aliveCheck, and_assoc] using this

theorem loop_exit_winner_witness :
    (mkPlayer "A").active = true ∧ (mkPlayer "A").disconnected = false ∧
      0 < (mkPlayer "A").lives :=
  (loop_exit_winner (initState (["A", "B", "C"].map mkPlayer))).2 (mkPlayer "A")
    (by decide)

/-! ### Further structural lemmas about `step` -/

theorem advanceTurn_roster (s : GameState) : (advanceTurn s).roster = s.roster := rfl

theorem skipCheck_false (p : Player) (h : skipCheck p = false) :
    0 < p.lives ∧ p.active = true ∧ p.disconnected = false := by
  have h' := h
  simp only [skipCheck, Bool.or_eq_false_iff, decide_eq_false_iff_not,
    Bool.not_eq_false'] at h'
  obtain ⟨⟨h1, h2⟩, h3⟩ := h'
  exact ⟨by omega, h2, h3⟩

theorem resolved_roster_length (WORDS : List String) (inp : TurnInput) (s : GameState)
    (out : Outcome) (s' : GameState) (h : step WORDS inp s = .resolved out s') :
    s'.roster.length = s.roster.length := by
  obtain ⟨-, -, -, hs'⟩ := step_resolved_inv WORDS inp s out s' h
  rw [hs', advanceTurn_roster]
  show (postSends _ _ _).length = _
  rw [postSends_length]
  by_cases hacc : out = .accepted
  · rw [if_pos hacc, preSends_length]
  · rw [if_neg hacc, decLife_length, preSends_length]

theorem resolved_roster_lives (WORDS : List String) (inp : TurnInput) (s : GameState)
    (out : Outcome) (s' : GameState) (h : step WORDS inp s = .resolved out s')
    (j : Nat) (hj : j < s.roster.length) :
    (s'.roster.getD j dummyPlayer).lives =
      if j = actingIdx s ∧ ¬ out = .accepted
      then (s.roster.getD j dummyPlayer).lives - 1
      else (s.roster.getD j dummyPlayer).lives := by
  obtain ⟨-, -, -, hs'⟩ := step_resolved_inv WORDS inp s out s' h
  rw [hs', advanceTurn_roster]
  show ((postSends _ _ _).getD j dummyPlayer).lives = _
  rw [postSends_getD_lives]
  by_cases hacc : out = .accepted
  · rw [if_pos hacc, preSends_getD_lives, if_neg (by intro hc; exact hc.2 hacc)]
  · rw [if_neg hacc]
    have hjpre : j < (preSends inp (actingIdx s) s.roster).length := by
      rw [preSends_length]; exact hj
    rw [decLife_getD _ _ _ _ hjpre]
    by_cases hji : j = actingIdx s
    · rw [if_pos hji, if_pos ⟨hji, hacc⟩]
      show ((preSends inp (actingIdx s) s.roster).getD j dummyPlayer).lives - 1
        = (s.roster.getD j dummyPlayer).lives - 1
      rw [preSends_getD_lives]
    · rw [if_neg hji, if_neg (by intro hc; exact hji hc.1), preSends_getD_lives]

theorem livesInv_step_resolved (WORDS : List String) (inp : TurnInput) (s : GameState)
    (out : Outcome) (s' : GameState) (hn : ∀ p ∈ s.roster, 0 ≤ p.lives)
    (h : step WORDS inp s = .resolved out s') :
    ∀ p ∈ s'.roster, 0 ≤ p.lives := by
  intro p hp
  obtain ⟨⟨j, hjlen⟩, rfl⟩ := List.mem_iff_get.mp hp
  have hj : j < s'.roster.length := hjlen
  have hj' : j < s.roster.length := by
    rw [← resolved_roster_length WORDS inp s out s' h]; exact hj
  have hval := resolved_roster_lives WORDS inp s out s' h j hj'
  rw [List.get_eq_getElem, ← getD_lt s'.roster j hj dummyPlayer, hval]
  split
  · next hc =>
    obtain ⟨-, hskip, -, -⟩ := step_resolved_inv WORDS inp s out s' h
    have hpos := (skipCheck_false _ hskip).1
    rw [hc.1]
    omega
  · next hc =>
    have hmem : s.roster.getD j dummyPlayer ∈ s.roster := by
      rw [getD_lt _ _ hj']
      exact List.getElem_mem _
    exact hn _ hmem

/-! ### Shared concrete scenarios for witnesses and counterexamples -/

def allIdx : Nat → Bool := fun _ => true

def exWORDS : List String := ["cat", "dog"]

/-- Three freshly admitted players about to start the game. -/
def exState0 : GameState := initState (["A", "B", "C"].map mkPlayer)

/-- An uneventful turn in which the acting player times out. -/
def exInpTimeout : TurnInput := ⟨"ca", [], [], [], false, [], none, false, []⟩

/-- A turn in which the round-header broadcast to player 2 fails (a
detected channel failure on the connection of that player) and the acting
player then times out. -/
def cexInpFail : TurnInput := ⟨"ca", [2], [], [], false, [], none, false, []⟩

/-- State after `exInpTimeout` from `exState0`. -/
def exState1 : GameState :=
  { roster := [⟨"A", true, 2, false⟩, ⟨"B", true, 3, false⟩, ⟨"C", true, 3, false⟩],
    turn := 1, roundNum := 1, usedWords := [], seq := "ca", lastWordValid := false }

/-- State after `cexInpFail` from `exState0`: player 2 is marked
disconnected, the turn was still resolved as a timeout. -/
def cexS1 : GameState :=
  { roster := [⟨"A", true, 2, false⟩, ⟨"B", true, 3, false⟩, ⟨"C", false, 3, true⟩],
    turn := 1, roundNum := 1, usedWords := [], seq := "ca", lastWordValid := false }

/-- State after a further clean timeout turn from `cexS1`. -/
def cexS2 : GameState :=
  { roster := [⟨"A", true, 2, false⟩, ⟨"B", true, 2, false⟩, ⟨"C", false, 3, true⟩],
    turn := 2, roundNum := 1, usedWords := [], seq := "ca", lastWordValid := false }

/-- Single-player state whose turn prompt send fails. -/
def wShutState : GameState := initState (["A"].map mkPlayer)

def wShutInp : TurnInput := ⟨"ca", [], [], [], true, [], none, false, []⟩

/-! ### Remaining claim theorems -/

/-- Claim C2: in every state reachable by the game loop from a freshly
admitted roster all lives are non-negative; a resolved turn that is a
timeout or rejection decreases exactly the lives of the acting player by one,
while an accepted turn changes no lives; a skipped turn changes no
roster state at all. -/
theorem lives_nonneg_and_delta (WORDS : List String) :
    (∀ (names : List String) (s : GameState),
        Reaches WORDS (initState (names.map mkPlayer)) s →
        ∀ p ∈ s.roster, 0 ≤ p.lives) ∧
    (∀ inp s out s', step WORDS inp s = .resolved out s' →
        s'.roster.length = s.roster.length ∧
        ∀ j, j < s.roster.length →
          (s'.roster.getD j dummyPlayer).lives =
            (if j = actingIdx s ∧ ¬ out = .accepted
             then (s.roster.getD j dummyPlayer).lives - 1
             else (s.roster.getD j dummyPlayer).lives)) ∧
    (∀ inp s s', step WORDS inp s = .skipped s' → s'.roster = s.roster) := by
  refine ⟨?_,
    fun inp s out s' h => ⟨resolved_roster_length WORDS inp s out s' h,
      fun j hj => resolved_roster_lives WORDS inp s out s' h j hj⟩,
    fun inp s s' h => by rw [(step_skipped_inv WORDS inp s s' h).2.2]⟩
  intro names s hr
  induction hr with
  | refl =>
    intro p hp
    obtain ⟨n, -, rfl⟩ := List.mem_map.mp hp
    show (0 : Int) ≤ 3
    omega
  | skip t u inp hrt hstep ih =>
    rw [(step_skipped_inv WORDS inp t u hstep).2.2]
    exact ih
  | res t u inp out hrt hstep ih =>
    exact livesInv_step_resolved WORDS inp t out u ih hstep

theorem lives_nonneg_and_delta_witness :
    (0 ≤ (mkPlayer "A").lives) ∧
    ((exState1.roster.getD 0 dummyPlayer).lives
      = (exState0.roster.getD 0 dummyPlayer).lives - 1) := by
  constructor
  · exact (lives_nonneg_and_delta exWORDS).1 ["A", "B", "C"] _ (Reaches.refl _)
      (mkPlayer "A") (by decide)
  · have h := ((lives_nonneg_and_delta exWORDS).2.1 exInpTimeout exState0 .timeout exState1
      (by decide)).2 0 (by decide)
    exact h.trans (by decide)

/-- Claim C5: `lastWordValid` is true on loop entry, so the very first
resolved turn generates a fresh sequence; every resolved turn presents
the fresh sequence exactly when `lastWordValid` held and otherwise
re-presents the previous sequence unchanged; skipped turns change
neither the sequence nor `lastWordValid`. -/
theorem sequence_policy (WORDS : List String) (inp : TurnInput) (s : GameState) :
    (∀ roster, (initState roster).lastWordValid = true) ∧
    (∀ out s', step WORDS inp s = .resolved out s' →
        s'.seq = (if s.lastWordValid then inp.freshSeq else s.seq)) ∧
    (∀ s', step WORDS inp s = .skipped s' →
        s'.seq = s.seq ∧ s'.lastWordValid = s.lastWordValid) := by
  refine ⟨fun _ => rfl, ?_, ?_⟩
  · intro out s' h
    obtain ⟨-, -, -, hs'⟩ := step_resolved_inv WORDS inp s out s' h
    rw [hs']
    rfl
  · intro s' h
    rw [(step_skipped_inv WORDS inp s s' h).2.2]
    exact ⟨rfl, rfl⟩

theorem sequence_policy_witness : exState1.seq = "ca" := by
  have h := (sequence_policy exWORDS exInpTimeout exState0).2.1 .timeout exState1 (by decide)
  rw [h]
  decide

/-- Claim C7: a `broadcast` keeps the roster size, delivers only to
targeted players that are active and not disconnected, marks exactly the
targeted eligible players whose send fails as `disconnected = true,
active = false` while leaving every other player untouched, and
`send_to_player` is the same operation on a single index; the call
always returns a roster (it never decides session fate). -/
theorem broadcast_delivery (fails : List Nat) (t : Nat → Bool) (i : Nat)
    (ps : List Player) :
    ((broadcast fails t i ps).length = ps.length) ∧
    (∀ j, j < ps.length →
      (broadcast fails t i ps).getD j dummyPlayer =
        (if t (i + j) && (ps.getD j dummyPlayer).active
            && !(ps.getD j dummyPlayer).disconnected && fails.contains (i + j)
         then markFailed (ps.getD j dummyPlayer) else ps.getD j dummyPlayer)) ∧
    (∀ k ∈ broadcastDelivered fails t i ps,
      ∃ j, j < ps.length ∧ k = i + j ∧ (ps.getD j dummyPlayer).active = true ∧
        (ps.getD j dummyPlayer).disconnected = false) ∧
    (∀ b k, send_to_player b k ps
        = broadcast (if b then [k] else []) (fun j => decide (j = k)) 0 ps) := by
  refine ⟨broadcast_length fails t i ps, ?_, ?_, fun _ _ => rfl⟩
  · intro j hj
    rw [broadcast_getD fails t ps i j hj]
    rfl
  · intro k hk
    induction ps generalizing i with
    | nil => simp [broadcastDelivered] at hk
    | cons p ps ih =>
      unfold broadcastDelivered at hk
      rcases List.mem_append.mp hk with hk1 | hk1
      · by_cases hc : (t i && p.active && !p.disconnected && !fails.contains i) = true
        · rw [if_pos hc] at hk1
          have hki : k = i := by simpa using hk1
          subst hki
          simp only [Bool.and_eq_true, Bool.not_eq_true'] at hc
          refine ⟨0, by simp, by omega, ?_, ?_⟩
          · simpa using hc.1.1.2
          · simpa using hc.1.2
        · rw [if_neg hc] at hk1
          simp at hk1
      · obtain ⟨j, hj, hk', ha, hd⟩ := ih (i + 1) hk1
        refine ⟨j + 1, by simpa using hj, by omega, ?_, ?_⟩
        · simpa using ha
        · simpa using hd

theorem broadcast_delivery_witness :
    (broadcast [1] allIdx 0 (["A", "B"].map mkPlayer)).getD 1 dummyPlayer
      = markFailed ((["A", "B"].map mkPlayer).getD 1 dummyPlayer) := by
  have h := (broadcast_delivery [1] allIdx 0 (["A", "B"].map mkPlayer)).2.1 1 (by decide)
  rw [h, if_pos (by decide)]

/-- Claim C9: `disconnected ⇒ ¬active` holds initially and is preserved
by every flag-mutating operation — `markFailed` (the shared failure
bookkeeping), `broadcast` and `send_to_player` delivery failures, the
read-failure path of the lobby listener, and both non-terminating outcomes of
a game-loop step. -/
theorem disconnected_implies_inactive (WORDS : List String) :
    (∀ p, (markFailed p).disconnected = true ∧ (markFailed p).active = false) ∧
    (∀ (names : List String), flagInv (names.map mkPlayer)) ∧
    (∀ fails t i ps, flagInv ps → flagInv (broadcast fails t i ps)) ∧
    (∀ b i ps, flagInv ps → flagInv (send_to_player b i ps)) ∧
    (∀ i ps, flagInv ps → flagInv (handle_player_disconnect i ps).1) ∧
    (∀ inp s s', flagInv s.roster → step WORDS inp s = .skipped s' → flagInv s'.roster) ∧
    (∀ inp s out s', flagInv s.roster → step WORDS inp s = .resolved out s' →
        flagInv s'.roster) := by
  refine ⟨fun p => ⟨rfl, rfl⟩, ?_, fun fails t i ps h => flagInv_broadcast fails t i ps h,
    fun b i ps h => flagInv_send_to_player b i ps h, ?_, ?_, ?_⟩
  · intro names p hp
    obtain ⟨n, -, rfl⟩ := List.mem_map.mp hp
    intro hd
    simp [mkPlayer] at hd
  · intro i ps hinv q hq
    unfold handle_player_disconnect at hq
    rcases List.mem_or_eq_of_mem_set hq with hq | hq
    · exact hinv q hq
    · subst hq
      intro _
      rfl
  · intro inp s s' hinv h
    rw [(step_skipped_inv WORDS inp s s' h).2.2]
    exact hinv
  · intro inp s out s' hinv h
    obtain ⟨-, -, -, hs'⟩ := step_resolved_inv WORDS inp s out s' h
    rw [hs', advanceTurn_roster]
    refine flagInv_postSends _ _ _ ?_
    split
    · exact flagInv_preSends _ _ _ hinv
    · exact flagInv_decLife _ _ (flagInv_preSends _ _ _ hinv)

theorem disconnected_implies_inactive_witness :
    (markFailed (mkPlayer "A")).disconnected = true ∧
    (markFailed (mkPlayer "A")).active = false :=
  (disconnected_implies_inactive exWORDS).1 (mkPlayer "A")

/-- Claim C6, counterexample: a channel failure detected during the
round-header broadcast (player 2's send raises; the handler marks it
disconnected) does not terminate the server: the same turn is still
resolved, and a further turn is resolved afterwards. -/
theorem fail_fast_cex :
    step exWORDS cexInpFail exState0 = .resolved .timeout cexS1 ∧
    (cexS1.roster.getD 2 dummyPlayer).disconnected = true ∧
    step exWORDS exInpTimeout cexS1 = .resolved .timeout cexS2 := by
  exact ⟨by decide, by decide, by decide⟩

/-- Claim C6, amended: the process terminates with exit status 1 when
the lobby-listener read on a player fails, and in-game exactly when
the `disconnected` flag of the acting player is observed set after the read
(which happens when a send to the acting player failed); a delivery
failure on a non-acting player, or a read failure that leaves the flag
unset, does not terminate the process — the turn is resolved and play
continues.  In the model a `shutdown` result has no successor state, so
no further turn is resolved after it. -/
theorem fail_fast_amended (WORDS : List String) (inp : TurnInput) (s : GameState) :
    (∀ i ps, (handle_player_disconnect i ps).2 = 1) ∧
    (∀ c, step WORDS inp s = .shutdown c → c = 1) ∧
    (step WORDS inp s = .shutdown 1 ↔
      (s.roster.length ≠ 0 ∧
       skipCheck (s.roster.getD (actingIdx s) dummyPlayer) = false ∧
       ((preSends inp (actingIdx s) s.roster).getD (actingIdx s) dummyPlayer).disconnected
         = true)) := by
  refine ⟨fun _ _ => rfl, fun c h => ((step_shutdown_inv WORDS inp s c).mp h).1, ?_, ?_⟩
  · intro h
    exact ((step_shutdown_inv WORDS inp s 1).mp h).2
  · intro hc
    exact (step_shutdown_inv WORDS inp s 1).mpr ⟨rfl, hc.1, hc.2.1, hc.2.2⟩

theorem fail_fast_amended_witness :
    step exWORDS wShutInp wShutState = .shutdown 1 :=
  (fail_fast_amended exWORDS wShutInp wShutState).2.2.mpr (by decide)

end WordGame
